import Mathlib

/-!
# Verification of the learn2trade portfolio ledger

Shallow embedding of the portfolio ledger and order-execution logic of
`stock_app3.py` (functions `get_user_portfolio`, `calculate_portfolio_value`,
`update_portfolio_db`) over the relational schema of `setup_database.py`.

Modelling conventions:
* `DECIMAL(15,2)` currency columns and Python floats are modelled as exact
  rationals `ℚ`; `INTEGER` share counts as `ℤ` (Python ints are unbounded and
  the code never validates sign).
* A table of holdings rows (unique on `(portfolio_id, symbol)` per the data
  model) is an association list `List (String × Holding)`; SQL
  `UPDATE ... WHERE symbol = s` updates every matching row, `DELETE` removes
  every matching row, `INSERT` appends, and a `SELECT ... WHERE symbol = s`
  returns the first matching row.
* `update_portfolio_db` issues its writes one `cur.execute` at a time on a
  connection created by `get_db_connection`, which sets `autocommit = True`;
  each statement is therefore durably committed the moment it runs, and the
  trailing `conn.commit()` / `conn.rollback()` calls are no-ops.  The list of
  statements a successful trade issues is reified as `buyWrites` / `sellWrites`
  so that a storage fault after the first `k` statements can be modelled as
  committing exactly those `k` writes (`autocommitRun`).
* Timestamp columns (`updated_at`, order `timestamp`) are not modelled.
-/

namespace Learn2Trade

/-- One row of the `holdings` table (fields beyond the key `symbol`). -/
structure Holding where
  company_name : String
  shares : ℤ
  avg_price : ℚ
  total_invested : ℚ
deriving DecidableEq, Repr

/-- One row of the append-only `orders` table. -/
structure Order where
  symbol : String
  company_name : String
  action : String
  shares : ℤ
  price : ℚ
  total : ℚ
  profit_loss : Option ℚ
deriving DecidableEq, Repr

/-- A user's ledger state: the `portfolios` row (`cash`, cached `total_value`)
together with its `holdings` rows and `orders` rows.  This is what
`get_user_portfolio` reads into its dict (the dict omits `total_value`, but the
stored row carries it and `calculate_portfolio_value` writes it back). -/
structure Portfolio where
  portfolio_id : ℕ
  cash : ℚ
  total_value : ℚ
  holdings : List (String × Holding)
  orders : List Order
deriving DecidableEq, Repr

/-- `SELECT ... FROM holdings WHERE symbol = sym` / Python `holdings[sym]`:
first row whose key matches. -/
def lookupHolding : List (String × Holding) → String → Option Holding
  | [], _ => none
  | kv :: rest, sym => if kv.1 = sym then some kv.2 else lookupHolding rest sym

/-- `UPDATE holdings SET ... WHERE symbol = sym`: rewrite every matching row
with `f`. -/
def updateAssoc : List (String × Holding) → String → (Holding → Holding) → List (String × Holding)
  | [], _, _ => []
  | kv :: rest, sym, f =>
      (if kv.1 = sym then (kv.1, f kv.2) else kv) :: updateAssoc rest sym f

/-- `DELETE FROM holdings WHERE symbol = sym`: drop every matching row. -/
def eraseAssoc : List (String × Holding) → String → List (String × Holding)
  | [], _ => []
  | kv :: rest, sym =>
      if kv.1 = sym then eraseAssoc rest sym else kv :: eraseAssoc rest sym

/-- The buy-branch `UPDATE holdings SET shares = shares + s, total_invested =
total_invested + cost, avg_price = (total_invested + cost) / (shares + s)`:
in SQL every right-hand side reads the old row values. -/
def buyUpdateRow (h : Holding) (s : ℤ) (total_cost : ℚ) : Holding :=
  { h with
    shares := h.shares + s
    total_invested := h.total_invested + total_cost
    avg_price := (h.total_invested + total_cost) / ((h.shares : ℚ) + (s : ℚ)) }

/-- One SQL write statement issued by `update_portfolio_db`. -/
inductive WriteOp where
  | updateCash (new_cash : ℚ)
  | updateHoldingBuy (symbol : String) (shares : ℤ) (total_cost : ℚ)
  | insertHolding (symbol company_name : String) (shares : ℤ) (price total_cost : ℚ)
  | updateHoldingSell (symbol : String) (remaining_shares : ℤ) (new_total_invested : ℚ)
  | deleteHolding (symbol : String)
  | insertOrder (o : Order)
deriving DecidableEq, Repr

/-- Effect of one committed write statement on the stored ledger. -/
def applyWrite (p : Portfolio) : WriteOp → Portfolio
  | .updateCash c => { p with cash := c }
  | .updateHoldingBuy sym s cost =>
      { p with holdings := updateAssoc p.holdings sym (fun h => buyUpdateRow h s cost) }
  | .insertHolding sym company s price cost =>
      { p with holdings := p.holdings ++ [(sym, ⟨company, s, price, cost⟩)] }
  | .updateHoldingSell sym rem newTotal =>
      { p with holdings :=
          (updateAssoc p.holdings sym
            (fun h => { h with shares := rem, total_invested := newTotal })) }
  | .deleteHolding sym => { p with holdings := eraseAssoc p.holdings sym }
  | .insertOrder o => { p with orders := p.orders ++ [o] }

/-- The statements a funds-checked buy issues, in source order: cash update,
then holding update or insert (chosen by the `SELECT id FROM holdings` probe),
then order insert with NULL `profit_loss`. -/
def buyWrites (p : Portfolio) (symbol company_name : String) (shares : ℤ) (price : ℚ) :
    List WriteOp :=
  let total_cost : ℚ := (shares : ℚ) * price
  let new_cash := p.cash - total_cost
  [WriteOp.updateCash new_cash] ++
    (match lookupHolding p.holdings symbol with
      | some _ => [WriteOp.updateHoldingBuy symbol shares total_cost]
      | none => [WriteOp.insertHolding symbol company_name shares price total_cost]) ++
    [WriteOp.insertOrder ⟨symbol, company_name, "buy", shares, price, total_cost, none⟩]

/-- The statements a validated sell issues, in source order: cash update, then
holding delete (remaining shares zero) or rewrite, then order insert carrying
the realized `profit_loss`. -/
def sellWrites (p : Portfolio) (symbol company_name : String) (shares : ℤ) (price : ℚ)
    (h : Holding) : List WriteOp :=
  let avg_price := h.avg_price
  let profit_loss := (price - avg_price) * (shares : ℚ)
  let total_value : ℚ := (shares : ℚ) * price
  let new_cash := p.cash + total_value
  let remaining_shares := h.shares - shares
  [WriteOp.updateCash new_cash] ++
    (if remaining_shares = 0 then [WriteOp.deleteHolding symbol]
      else [WriteOp.updateHoldingSell symbol remaining_shares
              ((remaining_shares : ℚ) * avg_price)]) ++
    [WriteOp.insertOrder ⟨symbol, company_name, "sell", shares, price, total_value,
      some profit_loss⟩]

/-- Under autocommit, a storage fault raised by statement `k + 1` leaves exactly
the first `k` statements durably committed: `conn.rollback()` in the `except`
handler undoes nothing on an `autocommit = True` connection. -/
def autocommitRun (p : Portfolio) (ws : List WriteOp) (k : ℕ) : Portfolio :=
  List.foldl applyWrite p (ws.take k)

/-- A buy against an existing holding whose `shares + s` is zero makes the SQL
`avg_price = (total_invested + cost) / (shares + s)` raise division-by-zero
(reachable only because shares are never validated to be positive). -/
def buyDivByZero (hs : List (String × Holding)) (sym : String) (shares : ℤ) : Bool :=
  match lookupHolding hs sym with
  | some h => h.shares + shares == 0
  | none => false

/-- `update_portfolio_db(user_id, symbol, action, shares, price, company_name)`
with the storage available and fault-free: validation plus the committed effect
of all issued statements.  Returns the Python result (`None` when neither
branch is taken and control falls off the end of the function) and the
resulting stored ledger.  The source's sell success message also interpolates
the formatted P&L figure, and its `Transaction failed: ...` message carries the
database driver's error string; both messages are abbreviated here.  The one
storage exception reachable on valid connections, the division-by-zero of the
buy branch, is modelled explicitly: the `except` handler reports failure but
the already-executed cash update stays committed under autocommit. -/
def update_portfolio_db (p : Portfolio) (symbol action : String) (shares : ℤ) (price : ℚ)
    (company_name : String) : Option (Bool × String) × Portfolio :=
  if action = "buy" then
    let total_cost : ℚ := (shares : ℚ) * price
    if total_cost > p.cash then (some (false, "Insufficient funds"), p)
    else if buyDivByZero p.holdings symbol shares then
      (some (false, "Transaction failed: division by zero"),
        autocommitRun p (buyWrites p symbol company_name shares price) 1)
    else
      (some (true, "Buy order executed"),
        List.foldl applyWrite p (buyWrites p symbol company_name shares price))
  else if action = "sell" then
    match lookupHolding p.holdings symbol with
    | none => (some (false, "No shares to sell"), p)
    | some h =>
        if h.shares < shares then (some (false, "Insufficient shares"), p)
        else
          (some (true, "Sell order executed"),
            List.foldl applyWrite p (sellWrites p symbol company_name shares price h))
  else (none, p)

/-- One trade request as passed to `PaperTradingAccount.execute_trade`. -/
structure Trade where
  symbol : String
  action : String
  shares : ℤ
  price : ℚ
  company_name : String
deriving DecidableEq, Repr

/-- `execute_trade` delegates to `update_portfolio_db`. -/
def execute_trade (p : Portfolio) (t : Trade) : Option (Bool × String) × Portfolio :=
  update_portfolio_db p t.symbol t.action t.shares t.price t.company_name

/-- Committed ledger after a sequence of trade requests. -/
def runTrades (p : Portfolio) : List Trade → Portfolio
  | [] => p
  | t :: ts => runTrades (execute_trade p t).2 ts

/-- A freshly provisioned portfolio row: `cash` and `total_value` take their
schema defaults of 100000.00, no holdings, no orders. -/
def freshPortfolio (pid : ℕ) : Portfolio :=
  { portfolio_id := pid, cash := 100000, total_value := 100000, holdings := [], orders := [] }

/-- The in-memory dict `get_user_portfolio` fabricates when no database
connection is available (and in its `except` handler): default cash, empty
holdings and orders, `portfolio_id = 0`. -/
def defaultPortfolioDict : Portfolio :=
  { portfolio_id := 0, cash := 100000, total_value := 100000, holdings := [], orders := [] }

/-- The `portfolios`/`holdings`/`orders` tables, keyed by `user_id`, plus the
`SERIAL` counter for the next portfolio id. -/
structure Store where
  rows : List (ℕ × Portfolio)
  next_id : ℕ
deriving DecidableEq, Repr

/-- First `portfolios` row for a given `user_id`. -/
def findRow : List (ℕ × Portfolio) → ℕ → Option Portfolio
  | [], _ => none
  | kv :: rest, uid => if kv.1 = uid then some kv.2 else findRow rest uid

/-- `get_user_portfolio(user_id)`: with no connection (`conn is None`), return
the fabricated `defaultPortfolioDict`; with a connection, return the stored
row, or auto-provision a fresh row (`INSERT INTO portfolios ... RETURNING id`)
when none exists.  Returns the snapshot and the possibly-extended store. -/
def get_user_portfolio (conn : Option Store) (user_id : ℕ) : Portfolio × Option Store :=
  match conn with
  | none => (defaultPortfolioDict, none)
  | some s =>
      match findRow s.rows user_id with
      | some p => (p, some s)
      | none =>
          let p := freshPortfolio s.next_id
          (p, some { rows := s.rows ++ [(user_id, p)], next_id := s.next_id + 1 })

/-- `calculate_portfolio_value(user_id)` given the user's ledger state and the
external price feed (`yf.Ticker(...).fast_info`, `none` = lookup failed, which
falls back to the holding's `avg_price`).  Returns the computed total and the
ledger as stored afterwards: the code issues
`UPDATE portfolios SET total_value = %s ... WHERE user_id = %s`. -/
def calculate_portfolio_value (prices : String → Option ℚ) (p : Portfolio) : ℚ × Portfolio :=
  let total := p.cash +
    (p.holdings.map (fun kv => (kv.2.shares : ℚ) * ((prices kv.1).getD kv.2.avg_price))).sum
  (total, { p with total_value := total })

/-- Sum of `total_invested` over the holdings rows. -/
def investedSum (hs : List (String × Holding)) : ℚ :=
  (hs.map (fun kv => kv.2.total_invested)).sum

/-- Sum of recorded `profit_loss` over sell orders. -/
def sellPnlSum (os : List Order) : ℚ :=
  (os.map (fun o => if o.action = "sell" then o.profit_loss.getD 0 else 0)).sum

/-- Sum of `total` over buy orders. -/
def buyTotalSum (os : List Order) : ℚ :=
  (os.map (fun o => if o.action = "buy" then o.total else 0)).sum

/-- Sum of `total` over sell orders. -/
def sellTotalSum (os : List Order) : ℚ :=
  (os.map (fun o => if o.action = "sell" then o.total else 0)).sum

/-! ### Association-list lemmas for the holdings table -/

theorem lookupHolding_eq_none {hs : List (String × Holding)} {sym : String} :
    lookupHolding hs sym = none ↔ sym ∉ hs.map Prod.fst := by
  induction hs with
  | nil => simp [lookupHolding]
  | cons kv rest ih =>
      by_cases h : kv.1 = sym
      · simp [lookupHolding, h]
      · simp [lookupHolding, h, ih, Ne.symm h]

theorem updateAssoc_of_none {hs : List (String × Holding)} {sym : String}
    {f : Holding → Holding} (h : lookupHolding hs sym = none) :
    updateAssoc hs sym f = hs := by
  induction hs with
  | nil => rfl
  | cons kv rest ih =>
      by_cases hk : kv.1 = sym
      · simp [lookupHolding, hk] at h
      · simp only [lookupHolding, hk, if_false] at h
        simp [updateAssoc, hk, ih h]

theorem eraseAssoc_of_none {hs : List (String × Holding)} {sym : String}
    (h : lookupHolding hs sym = none) :
    eraseAssoc hs sym = hs := by
  induction hs with
  | nil => rfl
  | cons kv rest ih =>
      by_cases hk : kv.1 = sym
      · simp [lookupHolding, hk] at h
      · simp only [lookupHolding, hk, if_false] at h
        simp [eraseAssoc, hk, ih h]

theorem lookupHolding_updateAssoc {hs : List (String × Holding)} {sym : String}
    {f : Holding → Holding} :
    lookupHolding (updateAssoc hs sym f) sym = (lookupHolding hs sym).map f := by
  induction hs with
  | nil => rfl
  | cons kv rest ih =>
      by_cases hk : kv.1 = sym
      · simp [updateAssoc, lookupHolding, hk]
      · simp [updateAssoc, lookupHolding, hk, ih]

theorem lookupHolding_eraseAssoc {hs : List (String × Holding)} {sym : String} :
    lookupHolding (eraseAssoc hs sym) sym = none := by
  induction hs with
  | nil => rfl
  | cons kv rest ih =>
      by_cases hk : kv.1 = sym
      · simp [eraseAssoc, hk, ih]
      · simp [eraseAssoc, lookupHolding, hk, ih]

theorem lookupHolding_append_of_none {hs l2 : List (String × Holding)} {sym : String}
    (h : lookupHolding hs sym = none) :
    lookupHolding (hs ++ l2) sym = lookupHolding l2 sym := by
  induction hs with
  | nil => rfl
  | cons kv rest ih =>
      by_cases hk : kv.1 = sym
      · simp [lookupHolding, hk] at h
      · simp only [lookupHolding, hk, if_false] at h
        simp [lookupHolding, hk, ih h]

theorem keys_updateAssoc {hs : List (String × Holding)} {sym : String}
    {f : Holding → Holding} :
    (updateAssoc hs sym f).map Prod.fst = hs.map Prod.fst := by
  induction hs with
  | nil => rfl
  | cons kv rest ih =>
      by_cases hk : kv.1 = sym
      · simp [updateAssoc, hk, ih]
      · simp [updateAssoc, hk, ih]

theorem eraseAssoc_sublist {hs : List (String × Holding)} {sym : String} :
    (eraseAssoc hs sym).Sublist hs := by
  induction hs with
  | nil => exact List.Sublist.refl _
  | cons kv rest ih =>
      by_cases hk : kv.1 = sym
      · simpa [eraseAssoc, hk] using ih.cons kv
      · simpa [eraseAssoc, hk] using ih.cons₂ kv

theorem mem_eraseAssoc {hs : List (String × Holding)} {sym : String}
    {kv : String × Holding} (h : kv ∈ eraseAssoc hs sym) : kv ∈ hs :=
  eraseAssoc_sublist.mem h

theorem mem_updateAssoc {hs : List (String × Holding)} {sym : String}
    {f : Holding → Holding} {h : Holding} {kv : String × Holding}
    (hnd : (hs.map Prod.fst).Nodup) (hfind : lookupHolding hs sym = some h)
    (hmem : kv ∈ updateAssoc hs sym f) : kv ∈ hs ∨ kv = (sym, f h) := by
  induction hs with
  | nil => cases hmem
  | cons kv0 rest ih =>
      simp only [List.map_cons, List.nodup_cons] at hnd
      by_cases hk : kv0.1 = sym
      · simp only [lookupHolding, hk, if_true, Option.some.injEq] at hfind
        have hnone : lookupHolding rest sym = none := by
          rw [lookupHolding_eq_none]
          rw [← hk]; exact hnd.1
        simp only [updateAssoc, hk, if_true, List.mem_cons,
          updateAssoc_of_none hnone] at hmem
        rcases hmem with hmem | hmem
        · right; rw [hmem, hfind]
        · left; exact List.mem_cons_of_mem _ hmem
      · simp only [lookupHolding, hk, if_false] at hfind
        simp only [updateAssoc, hk, if_false, List.mem_cons] at hmem
        rcases hmem with hmem | hmem
        · left; simp [hmem]
        · rcases ih hnd.2 hfind hmem with hin | heq
          · left; exact List.mem_cons_of_mem _ hin
          · right; exact heq

theorem investedSum_nil : investedSum [] = 0 := rfl

theorem investedSum_cons {kv : String × Holding} {hs : List (String × Holding)} :
    investedSum (kv :: hs) = kv.2.total_invested + investedSum hs := by
  simp [investedSum]

theorem investedSum_append {hs l2 : List (String × Holding)} :
    investedSum (hs ++ l2) = investedSum hs + investedSum l2 := by
  simp [investedSum]

theorem investedSum_updateAssoc {hs : List (String × Holding)} {sym : String}
    {f : Holding → Holding} {h : Holding}
    (hnd : (hs.map Prod.fst).Nodup) (hfind : lookupHolding hs sym = some h) :
    investedSum (updateAssoc hs sym f) =
      investedSum hs - h.total_invested + (f h).total_invested := by
  induction hs with
  | nil => cases hfind
  | cons kv rest ih =>
      simp only [List.map_cons, List.nodup_cons] at hnd
      by_cases hk : kv.1 = sym
      · simp only [lookupHolding, hk, if_true, Option.some.injEq] at hfind
        have hnone : lookupHolding rest sym = none := by
          rw [lookupHolding_eq_none]
          rw [← hk]; exact hnd.1
        simp only [updateAssoc, hk, if_true, updateAssoc_of_none hnone,
          investedSum_cons, hfind]
        ring
      · simp only [lookupHolding, hk, if_false] at hfind
        simp only [updateAssoc, hk, if_false, investedSum_cons, ih hnd.2 hfind]
        ring

theorem investedSum_eraseAssoc {hs : List (String × Holding)} {sym : String}
    {h : Holding}
    (hnd : (hs.map Prod.fst).Nodup) (hfind : lookupHolding hs sym = some h) :
    investedSum (eraseAssoc hs sym) = investedSum hs - h.total_invested := by
  induction hs with
  | nil => cases hfind
  | cons kv rest ih =>
      simp only [List.map_cons, List.nodup_cons] at hnd
      by_cases hk : kv.1 = sym
      · simp only [lookupHolding, hk, if_true, Option.some.injEq] at hfind
        have hnone : lookupHolding rest sym = none := by
          rw [lookupHolding_eq_none]
          rw [← hk]; exact hnd.1
        simp only [eraseAssoc, hk, if_true, eraseAssoc_of_none hnone,
          investedSum_cons, hfind]
        ring
      · simp only [lookupHolding, hk, if_false] at hfind
        simp only [eraseAssoc, hk, if_false, investedSum_cons, ih hnd.2 hfind]
        ring

/-! ### Branch-state lemmas for `update_portfolio_db` -/

theorem update_buy_insufficient {p : Portfolio} {sym c : String} {s : ℤ} {pr : ℚ}
    (hc : (s : ℚ) * pr > p.cash) :
    update_portfolio_db p sym "buy" s pr c = (some (false, "Insufficient funds"), p) := by
  simp [update_portfolio_db, hc]

theorem update_buy_new {p : Portfolio} {sym c : String} {s : ℤ} {pr : ℚ}
    (hc : ¬ (s : ℚ) * pr > p.cash) (hnone : lookupHolding p.holdings sym = none) :
    update_portfolio_db p sym "buy" s pr c =
      (some (true, "Buy order executed"),
        { p with cash := p.cash - (s : ℚ) * pr,
                 holdings := p.holdings ++ [(sym, ⟨c, s, pr, (s : ℚ) * pr⟩)],
                 orders := p.orders ++ [⟨sym, c, "buy", s, pr, (s : ℚ) * pr, none⟩] }) := by
  simp [update_portfolio_db, hc, buyDivByZero, buyWrites, hnone, applyWrite]

theorem update_buy_divzero {p : Portfolio} {sym c : String} {s : ℤ} {pr : ℚ} {h : Holding}
    (hc : ¬ (s : ℚ) * pr > p.cash) (hsome : lookupHolding p.holdings sym = some h)
    (hz : h.shares + s = 0) :
    update_portfolio_db p sym "buy" s pr c =
      (some (false, "Transaction failed: division by zero"),
        { p with cash := p.cash - (s : ℚ) * pr }) := by
  simp [update_portfolio_db, hc, buyDivByZero, hsome, hz, autocommitRun, buyWrites,
    applyWrite]

theorem update_buy_existing {p : Portfolio} {sym c : String} {s : ℤ} {pr : ℚ} {h : Holding}
    (hc : ¬ (s : ℚ) * pr > p.cash) (hsome : lookupHolding p.holdings sym = some h)
    (hne : h.shares + s ≠ 0) :
    update_portfolio_db p sym "buy" s pr c =
      (some (true, "Buy order executed"),
        { p with cash := p.cash - (s : ℚ) * pr,
                 holdings := (updateAssoc p.holdings sym
                   (fun x => buyUpdateRow x s ((s : ℚ) * pr))),
                 orders := p.orders ++ [⟨sym, c, "buy", s, pr, (s : ℚ) * pr, none⟩] }) := by
  simp [update_portfolio_db, hc, buyDivByZero, hsome, hne, buyWrites, applyWrite]

theorem update_sell_noposition {p : Portfolio} {sym c : String} {s : ℤ} {pr : ℚ}
    (hnone : lookupHolding p.holdings sym = none) :
    update_portfolio_db p sym "sell" s pr c = (some (false, "No shares to sell"), p) := by
  simp [update_portfolio_db, hnone]

theorem update_sell_insufficient {p : Portfolio} {sym c : String} {s : ℤ} {pr : ℚ}
    {h : Holding}
    (hsome : lookupHolding p.holdings sym = some h) (hlt : h.shares < s) :
    update_portfolio_db p sym "sell" s pr c = (some (false, "Insufficient shares"), p) := by
  simp [update_portfolio_db, hsome, hlt]

theorem update_sell_full {p : Portfolio} {sym c : String} {s : ℤ} {pr : ℚ} {h : Holding}
    (hsome : lookupHolding p.holdings sym = some h) (hge : ¬ h.shares < s)
    (hrem : h.shares - s = 0) :
    update_portfolio_db p sym "sell" s pr c =
      (some (true, "Sell order executed"),
        { p with cash := p.cash + (s : ℚ) * pr,
                 holdings := eraseAssoc p.holdings sym,
                 orders := p.orders ++ [⟨sym, c, "sell", s, pr, (s : ℚ) * pr,
                   some ((pr - h.avg_price) * (s : ℚ))⟩] }) := by
  simp [update_portfolio_db, hsome, hge, sellWrites, hrem, applyWrite]

theorem update_sell_remaining {p : Portfolio} {sym c : String} {s : ℤ} {pr : ℚ} {h : Holding}
    (hsome : lookupHolding p.holdings sym = some h) (hge : ¬ h.shares < s)
    (hrem : ¬ h.shares - s = 0) :
    update_portfolio_db p sym "sell" s pr c =
      (some (true, "Sell order executed"),
        { p with cash := p.cash + (s : ℚ) * pr,
                 holdings := (updateAssoc p.holdings sym (fun x => { x with shares := h.shares - s, total_invested := ((h.shares - s : ℤ) : ℚ) * h.avg_price })),
                 orders := p.orders ++ [⟨sym, c, "sell", s, pr, (s : ℚ) * pr,
                   some ((pr - h.avg_price) * (s : ℚ))⟩] }) := by
  simp [update_portfolio_db, hsome, hge, sellWrites, hrem, applyWrite]

theorem update_other_action {p : Portfolio} {sym a c : String} {s : ℤ} {pr : ℚ}
    (hb : a ≠ "buy") (hs : a ≠ "sell") :
    update_portfolio_db p sym a s pr c = (none, p) := by
  simp [update_portfolio_db, hb, hs]

/-! ### Ledger invariants -/

theorem mem_of_lookupHolding {hs : List (String × Holding)} {sym : String} {h : Holding}
    (hfind : lookupHolding hs sym = some h) : (sym, h) ∈ hs := by
  induction hs with
  | nil => cases hfind
  | cons kv rest ih =>
      by_cases hk : kv.1 = sym
      · simp only [lookupHolding, hk, if_true, Option.some.injEq] at hfind
        rw [← hk, ← hfind]
        exact List.mem_cons_self _ _
      · simp only [lookupHolding, hk, if_false] at hfind
        exact List.mem_cons_of_mem _ (ih hfind)

/-- Row invariant the executor maintains on every holdings row: a positive
share count and `total_invested = shares * avg_price` (the data model's
consistency requirement on the three fields). -/
def HoldingWF (h : Holding) : Prop :=
  0 < h.shares ∧ h.total_invested = (h.shares : ℚ) * h.avg_price

/-- Table invariant: symbols unique within the portfolio (schema constraint)
and every row well-formed. -/
def LedgerWF (p : Portfolio) : Prop :=
  (p.holdings.map Prod.fst).Nodup ∧ ∀ kv ∈ p.holdings, HoldingWF kv.2

/-- Accounting identity relative to starting cash `C0`:
`cash + Σ total_invested = C0 + Σ sell profit_loss`. -/
def Conserves (C0 : ℚ) (p : Portfolio) : Prop :=
  p.cash + investedSum p.holdings = C0 + sellPnlSum p.orders

theorem sellPnlSum_append {os : List Order} {o : Order} :
    sellPnlSum (os ++ [o]) =
      sellPnlSum os + (if o.action = "sell" then o.profit_loss.getD 0 else 0) := by
  simp [sellPnlSum]

theorem freshPortfolio_WF {pid : ℕ} : LedgerWF (freshPortfolio pid) := by
  constructor <;> simp [freshPortfolio]

theorem freshPortfolio_conserves {pid : ℕ} : Conserves 100000 (freshPortfolio pid) := by
  simp [Conserves, freshPortfolio, investedSum, sellPnlSum]

theorem step_cash_nonneg {p : Portfolio} {t : Trade}
    (hp : 0 ≤ p.cash) (hs : 0 < t.shares) (hpr : 0 < t.price) :
    0 ≤ (execute_trade p t).2.cash := by
  simp only [execute_trade]
  by_cases hb : t.action = "buy"
  · rw [hb]
    by_cases hc : (t.shares : ℚ) * t.price > p.cash
    · rw [update_buy_insufficient hc]; exact hp
    · have hcash : (t.shares : ℚ) * t.price ≤ p.cash := not_lt.mp hc
      cases hl : lookupHolding p.holdings t.symbol with
      | none => rw [update_buy_new hc hl]; simpa using hcash
      | some h =>
          by_cases hz : h.shares + t.shares = 0
          · rw [update_buy_divzero hc hl hz]; simpa using hcash
          · rw [update_buy_existing hc hl hz]; simpa using hcash
  · by_cases hsell : t.action = "sell"
    · rw [hsell]
      cases hl : lookupHolding p.holdings t.symbol with
      | none => rw [update_sell_noposition hl]; exact hp
      | some h =>
          have hmul : 0 ≤ (t.shares : ℚ) * t.price := by
            have h1 : (0 : ℚ) < (t.shares : ℚ) := by exact_mod_cast hs
            exact le_of_lt (mul_pos h1 hpr)
          by_cases hlt : h.shares < t.shares
          · rw [update_sell_insufficient hl hlt]; exact hp
          · by_cases hrem : h.shares - t.shares = 0
            · rw [update_sell_full hl hlt hrem]
              simpa using add_nonneg hp hmul
            · rw [update_sell_remaining hl hlt hrem]
              simpa using add_nonneg hp hmul
    · rw [update_other_action hb hsell]; exact hp

theorem runTrades_cash_nonneg {p : Portfolio} {ts : List Trade}
    (hp : 0 ≤ p.cash) (hall : ∀ t ∈ ts, 0 < t.shares ∧ 0 < t.price) :
    0 ≤ (runTrades p ts).cash := by
  induction ts generalizing p with
  | nil => exact hp
  | cons t rest ih =>
      have ht := hall t (List.mem_cons_self t rest)
      exact ih (step_cash_nonneg hp ht.1 ht.2) (fun u hu => hall u (List.mem_cons_of_mem _ hu))

theorem step_WF_conserves {C0 : ℚ} {p : Portfolio} {t : Trade}
    (hwf : LedgerWF p) (hcons : Conserves C0 p) (hs : 0 < t.shares) (_hpr : 0 < t.price) :
    LedgerWF (execute_trade p t).2 ∧ Conserves C0 (execute_trade p t).2 := by
  obtain ⟨hnd, hrows⟩ := hwf
  simp only [execute_trade]
  by_cases hb : t.action = "buy"
  · rw [hb]
    by_cases hc : (t.shares : ℚ) * t.price > p.cash
    · rw [update_buy_insufficient hc]; exact ⟨⟨hnd, hrows⟩, hcons⟩
    · cases hl : lookupHolding p.holdings t.symbol with
      | none =>
          rw [update_buy_new hc hl]
          have hnotmem := lookupHolding_eq_none.mp hl
          refine ⟨⟨?_, ?_⟩, ?_⟩
          · simp only [List.map_append, List.map_cons, List.map_nil, List.nodup_append]
            refine ⟨hnd, List.nodup_singleton _, ?_⟩
            intro x hx hmem
            rw [List.mem_singleton] at hmem
            rw [hmem] at hx
            exact hnotmem hx
          · intro kv hkv
            rcases List.mem_append.mp hkv with hin | hnew
            · exact hrows kv hin
            · simp only [List.mem_singleton] at hnew
              subst hnew
              exact ⟨hs, rfl⟩
          · simp only [Conserves, investedSum_append, investedSum_cons, investedSum_nil,
              sellPnlSum_append]
            simp only [Conserves] at hcons
            norm_num
            linarith
      | some h =>
          have hhWF := hrows _ (mem_of_lookupHolding hl)
          have h0 : 0 < h.shares := hhWF.1
          have hneZ : h.shares + t.shares ≠ 0 := by omega
          rw [update_buy_existing hc hl hneZ]
          have hsp : (0 : ℚ) < (t.shares : ℚ) := by exact_mod_cast hs
          have hhp : (0 : ℚ) < (h.shares : ℚ) := by exact_mod_cast h0
          have hne : (h.shares : ℚ) + (t.shares : ℚ) ≠ 0 := by linarith
          refine ⟨⟨?_, ?_⟩, ?_⟩
          · simpa [keys_updateAssoc] using hnd
          · intro kv hkv
            rcases mem_updateAssoc hnd hl hkv with hin | hnew
            · exact hrows kv hin
            · subst hnew
              have h1 : 0 < h.shares := hhWF.1
              constructor
              · dsimp only [buyUpdateRow]
                omega
              · dsimp only [buyUpdateRow]
                push_cast
                field_simp
          · simp only [Conserves, investedSum_updateAssoc hnd hl, sellPnlSum_append,
              buyUpdateRow]
            simp only [Conserves] at hcons
            norm_num
            linarith
  · by_cases hsell : t.action = "sell"
    · rw [hsell]
      cases hl : lookupHolding p.holdings t.symbol with
      | none => rw [update_sell_noposition hl]; exact ⟨⟨hnd, hrows⟩, hcons⟩
      | some h =>
          have hhWF := hrows _ (mem_of_lookupHolding hl)
          have hWFeq : h.total_invested = (h.shares : ℚ) * h.avg_price := hhWF.2
          by_cases hlt : h.shares < t.shares
          · rw [update_sell_insufficient hl hlt]; exact ⟨⟨hnd, hrows⟩, hcons⟩
          · by_cases hrem : h.shares - t.shares = 0
            · rw [update_sell_full hl hlt hrem]
              refine ⟨⟨?_, ?_⟩, ?_⟩
              · exact hnd.sublist (eraseAssoc_sublist.map Prod.fst)
              · exact fun kv hkv => hrows kv (mem_eraseAssoc hkv)
              · have hsh2 : h.shares = t.shares := by omega
                have hsh : (h.shares : ℚ) = (t.shares : ℚ) := by rw [hsh2]
                rw [hsh] at hWFeq
                simp only [Conserves, investedSum_eraseAssoc hnd hl, sellPnlSum_append]
                simp only [Conserves] at hcons
                norm_num
                linear_combination hcons - hWFeq
            · rw [update_sell_remaining hl hlt hrem]
              refine ⟨⟨?_, ?_⟩, ?_⟩
              · simpa [keys_updateAssoc] using hnd
              · intro kv hkv
                rcases mem_updateAssoc hnd hl hkv with hin | hnew
                · exact hrows kv hin
                · subst hnew
                  constructor
                  · dsimp only
                    omega
                  · rfl
              · simp only [Conserves, investedSum_updateAssoc hnd hl, sellPnlSum_append]
                simp only [Conserves] at hcons
                norm_num
                linear_combination hcons - hWFeq
    · rw [update_other_action hb hsell]; exact ⟨⟨hnd, hrows⟩, hcons⟩

theorem runTrades_WF_conserves {C0 : ℚ} {p : Portfolio} {ts : List Trade}
    (hwf : LedgerWF p) (hcons : Conserves C0 p)
    (hall : ∀ t ∈ ts, 0 < t.shares ∧ 0 < t.price) :
    LedgerWF (runTrades p ts) ∧ Conserves C0 (runTrades p ts) := by
  induction ts generalizing p with
  | nil => exact ⟨hwf, hcons⟩
  | cons t rest ih =>
      have ht := hall t (List.mem_cons_self t rest)
      have hstep := step_WF_conserves hwf hcons ht.1 ht.2
      exact ih hstep.1 hstep.2 (fun u hu => hall u (List.mem_cons_of_mem _ hu))

/-- A ledger with one open position, used to instantiate theorems. -/
def examplePortfolio : Portfolio :=
  { portfolio_id := 1, cash := 100, total_value := 100000,
    holdings := [("TCS", ⟨"Tata Consultancy", 10, 50, 500⟩)], orders := [] }

/-! ### Claims -/

/-- C1: the three writes of a buy (cash update, holding insert/update, order
insert) are claimed atomic; on the source's `autocommit = True` connection each
statement commits individually, so a storage failure after the first statement
of a 3-statement buy leaves a committed state that is neither the initial state
nor the fully applied state: cash is already debited while no holding row and
no order row exist.  The `conn.rollback()` in the `except` handler shows the
transactional intent but undoes nothing under autocommit. -/
theorem buy_writes_not_atomic :
    (buyWrites (freshPortfolio 1) "AAPL" "Apple Inc" 10 100).length = 3 ∧
    autocommitRun (freshPortfolio 1) (buyWrites (freshPortfolio 1) "AAPL" "Apple Inc" 10 100) 3 =
      (update_portfolio_db (freshPortfolio 1) "AAPL" "buy" 10 100 "Apple Inc").2 ∧
    (autocommitRun (freshPortfolio 1) (buyWrites (freshPortfolio 1) "AAPL" "Apple Inc" 10 100) 1).cash = 99000 ∧
    (autocommitRun (freshPortfolio 1) (buyWrites (freshPortfolio 1) "AAPL" "Apple Inc" 10 100) 1).holdings = [] ∧
    (autocommitRun (freshPortfolio 1) (buyWrites (freshPortfolio 1) "AAPL" "Apple Inc" 10 100) 1).orders = [] ∧
    autocommitRun (freshPortfolio 1) (buyWrites (freshPortfolio 1) "AAPL" "Apple Inc" 10 100) 1 ≠ freshPortfolio 1 ∧
    autocommitRun (freshPortfolio 1) (buyWrites (freshPortfolio 1) "AAPL" "Apple Inc" 10 100) 1 ≠
      (update_portfolio_db (freshPortfolio 1) "AAPL" "buy" 10 100 "Apple Inc").2 := by
  norm_num +decide [autocommitRun, buyWrites, applyWrite, lookupHolding, freshPortfolio,
    update_portfolio_db, Portfolio.mk.injEq]

/-- C2 counterexample: `update_portfolio_db` never rejects non-positive shares
or price as `InvalidInput`: a buy of -1 share at price 10 on a fresh portfolio
is reported as an executed buy and commits writes, increasing cash. -/
theorem buy_negative_shares_executes :
    (update_portfolio_db (freshPortfolio 1) "AAPL" "buy" (-1) 10 "Apple").1 =
      some (true, "Buy order executed") ∧
    (update_portfolio_db (freshPortfolio 1) "AAPL" "buy" (-1) 10 "Apple").2.cash = 100010 ∧
    (update_portfolio_db (freshPortfolio 1) "AAPL" "buy" (-1) 10 "Apple").2.orders ≠ [] := by
  norm_num +decide [update_portfolio_db, buyWrites, applyWrite, lookupHolding, freshPortfolio]

/-- C2 amended: `update_portfolio_db` performs no positivity validation at all;
a call with `shares <= 0` (or `price <= 0`) is not rejected before storage
access: a buy goes straight to the funds check and executes whenever
`shares*price <= cash`, and a sell goes straight to the position/shares checks
and executes whenever the symbol is held with more shares than requested. -/
theorem update_portfolio_db_no_input_validation {p : Portfolio} {sym c : String}
    {s : ℤ} {pr : ℚ} (hs : s ≤ 0) (hpr : 0 ≤ pr) :
    (0 ≤ p.cash → lookupHolding p.holdings sym = none →
      (update_portfolio_db p sym "buy" s pr c).1 = some (true, "Buy order executed")) ∧
    (∀ h, lookupHolding p.holdings sym = some h → 0 < h.shares →
      (update_portfolio_db p sym "sell" s pr c).1 = some (true, "Sell order executed")) := by
  constructor
  · intro hcash hnone
    have hsq : (s : ℚ) ≤ 0 := by exact_mod_cast hs
    have hc : ¬ (s : ℚ) * pr > p.cash :=
      not_lt.mpr (le_trans (mul_nonpos_of_nonpos_of_nonneg hsq hpr) hcash)
    rw [update_buy_new hc hnone]
  · intro h hsome hpos
    have hge : ¬ h.shares < s := by omega
    by_cases hrem : h.shares - s = 0
    · rw [update_sell_full hsome hge hrem]
    · rw [update_sell_remaining hsome hge hrem]

/-- C2 amended, witness: concrete non-positive-share buy and sell both execute. -/
theorem update_portfolio_db_no_input_validation_witness :
    (update_portfolio_db (freshPortfolio 1) "X" "buy" (-2) 5 "").1 =
      some (true, "Buy order executed") ∧
    (update_portfolio_db examplePortfolio "TCS" "sell" (-2) 5 "").1 =
      some (true, "Sell order executed") :=
  ⟨(update_portfolio_db_no_input_validation (by decide) (by norm_num)).1
     (by norm_num [freshPortfolio]) rfl,
   (update_portfolio_db_no_input_validation (by decide) (by norm_num)).2
     ⟨"Tata Consultancy", 10, 50, 500⟩ rfl (by decide)⟩

/-- C3 counterexample: with no input validation, a committed state with
negative cash is reachable from a fresh portfolio: buy 1 share of A at 10,
then sell it at price -200000; the sell is reported executed and the committed
cash is -100010. -/
theorem committed_cash_can_go_negative :
    ((execute_trade (execute_trade (freshPortfolio 1) ⟨"A", "buy", 1, 10, ""⟩).2
        ⟨"A", "sell", 1, -200000, ""⟩).1 = some (true, "Sell order executed")) ∧
    (runTrades (freshPortfolio 1)
      [⟨"A", "buy", 1, 10, ""⟩, ⟨"A", "sell", 1, -200000, ""⟩]).cash = -100010 := by
  norm_num +decide [runTrades, execute_trade, update_portfolio_db, buyWrites, sellWrites,
    applyWrite, lookupHolding, updateAssoc, eraseAssoc, freshPortfolio]

/-- C3 amended: restricted to operations with positive shares and positive
price (the spec's own precondition), every committed state reachable from a
freshly provisioned portfolio has `cash >= 0`; and a buy whose total cost
exceeds current cash never executes: it fails with "Insufficient funds" and
leaves the ledger unchanged. -/
theorem cash_never_negative {pid : ℕ} {ts : List Trade}
    (hall : ∀ t ∈ ts, 0 < t.shares ∧ 0 < t.price) :
    0 ≤ (runTrades (freshPortfolio pid) ts).cash ∧
    (∀ (p : Portfolio) (sym c : String) (s : ℤ) (pr : ℚ), (s : ℚ) * pr > p.cash →
      update_portfolio_db p sym "buy" s pr c = (some (false, "Insufficient funds"), p)) :=
  ⟨runTrades_cash_nonneg (by norm_num [freshPortfolio]) hall,
   fun _ _ _ _ _ hc => update_buy_insufficient hc⟩

/-- C3 amended, witness: a concrete positive trade sequence keeps cash
non-negative, and a concrete over-budget buy is rejected unchanged. -/
theorem cash_never_negative_witness :
    0 ≤ (runTrades (freshPortfolio 1) [⟨"A", "buy", 1, 10, ""⟩]).cash ∧
    update_portfolio_db (freshPortfolio 1) "B" "buy" 2000 100 "" =
      (some (false, "Insufficient funds"), freshPortfolio 1) :=
  ⟨(@cash_never_negative 1 [⟨"A", "buy", 1, 10, ""⟩]
     (by intro t ht; rw [List.mem_singleton] at ht; subst ht; exact ⟨by decide, by norm_num⟩)).1,
   (@cash_never_negative 1 [] (by simp)).2 _ _ _ _ _
     (by norm_num [freshPortfolio])⟩

/-- C4 counterexample: the claimed identity
`final_cash + Σ total_invested = C0 - Σ buy totals + Σ sell totals` fails far
outside 1-cent tolerance whenever a position is open: after the single buy of
10 shares at 100 from cash 100000, the left side is 100000 while the right
side is 99000. -/
theorem conservation_identity_fails_after_one_buy :
    (runTrades (freshPortfolio 1) [⟨"A", "buy", 10, 100, ""⟩]).cash = 99000 ∧
    investedSum (runTrades (freshPortfolio 1) [⟨"A", "buy", 10, 100, ""⟩]).holdings = 1000 ∧
    buyTotalSum (runTrades (freshPortfolio 1) [⟨"A", "buy", 10, 100, ""⟩]).orders = 1000 ∧
    sellTotalSum (runTrades (freshPortfolio 1) [⟨"A", "buy", 10, 100, ""⟩]).orders = 0 ∧
    (1 : ℚ) / 100 <
      (runTrades (freshPortfolio 1) [⟨"A", "buy", 10, 100, ""⟩]).cash +
        investedSum (runTrades (freshPortfolio 1) [⟨"A", "buy", 10, 100, ""⟩]).holdings -
        (100000 - buyTotalSum (runTrades (freshPortfolio 1) [⟨"A", "buy", 10, 100, ""⟩]).orders +
          sellTotalSum (runTrades (freshPortfolio 1) [⟨"A", "buy", 10, 100, ""⟩]).orders) := by
  norm_num +decide [runTrades, execute_trade, update_portfolio_db, buyWrites, applyWrite,
    lookupHolding, freshPortfolio, investedSum, buyTotalSum, sellTotalSum]

/-- C4 amended: the accounting identity the executor actually maintains, for
any sequence of positive-share, positive-price trades from a freshly
provisioned portfolio (cash 100000), is
`final_cash + Σ total_invested = C0 + Σ (sell profit_loss)`, and it holds
exactly in the rational model (no tolerance needed). -/
theorem conservation {pid : ℕ} {ts : List Trade}
    (hall : ∀ t ∈ ts, 0 < t.shares ∧ 0 < t.price) :
    (runTrades (freshPortfolio pid) ts).cash +
        investedSum (runTrades (freshPortfolio pid) ts).holdings =
      100000 + sellPnlSum (runTrades (freshPortfolio pid) ts).orders :=
  (runTrades_WF_conserves freshPortfolio_WF freshPortfolio_conserves hall).2

/-- C5: a funds-checked buy of `s` shares at price `pr` that does not hit the
division-by-zero edge decreases cash by `s*pr`; with no prior holding it
creates the row `(shares = s, avg_price = pr, total_invested = s*pr)`; with a
prior holding `h` it leaves the row with `shares = h.shares + s`,
`total_invested = h.total_invested + s*pr`, and
`avg_price = (h.total_invested + s*pr) / (h.shares + s)`. -/
theorem buy_updates_cash_and_holding {p : Portfolio} {sym c : String} {s : ℤ} {pr : ℚ}
    (hc : (s : ℚ) * pr ≤ p.cash)
    (hnz : ∀ h, lookupHolding p.holdings sym = some h → h.shares + s ≠ 0) :
    (update_portfolio_db p sym "buy" s pr c).1 = some (true, "Buy order executed") ∧
    (update_portfolio_db p sym "buy" s pr c).2.cash = p.cash - (s : ℚ) * pr ∧
    (lookupHolding p.holdings sym = none →
      lookupHolding (update_portfolio_db p sym "buy" s pr c).2.holdings sym =
        some ⟨c, s, pr, (s : ℚ) * pr⟩) ∧
    (∀ h, lookupHolding p.holdings sym = some h →
      lookupHolding (update_portfolio_db p sym "buy" s pr c).2.holdings sym =
        some ⟨h.company_name, h.shares + s,
          (h.total_invested + (s : ℚ) * pr) / ((h.shares : ℚ) + (s : ℚ)),
          h.total_invested + (s : ℚ) * pr⟩) := by
  have hc' : ¬ (s : ℚ) * pr > p.cash := not_lt.mpr hc
  refine ⟨?_, ?_, ?_, ?_⟩
  · cases hl : lookupHolding p.holdings sym with
    | none => rw [update_buy_new hc' hl]
    | some h => rw [update_buy_existing hc' hl (hnz h hl)]
  · cases hl : lookupHolding p.holdings sym with
    | none => rw [update_buy_new hc' hl]
    | some h => rw [update_buy_existing hc' hl (hnz h hl)]
  · intro hl
    rw [update_buy_new hc' hl]
    dsimp only
    rw [lookupHolding_append_of_none hl]
    simp [lookupHolding]
  · intro h hl
    rw [update_buy_existing hc' hl (hnz h hl)]
    dsimp only
    rw [lookupHolding_updateAssoc, hl]
    rfl

/-- C5 witness: buying 4 more TCS at 6 against the example position of 10
shares at average 50 gives 14 shares, total invested 524, average 524/14. -/
theorem buy_updates_cash_and_holding_witness :
    lookupHolding
        (update_portfolio_db examplePortfolio "TCS" "buy" 4 6 "Tata Consultancy").2.holdings
        "TCS" =
      some ⟨"Tata Consultancy", 14, 262 / 7, 524⟩ := by
  have hmain :=
    (@buy_updates_cash_and_holding examplePortfolio "TCS" "Tata Consultancy" 4 6
        (by norm_num [examplePortfolio])
        (by
          intro h hl
          have hl2 : some (⟨"Tata Consultancy", 10, 50, 500⟩ : Holding) = some h := hl
          injection hl2 with hl3
          subst hl3
          decide)).2.2.2
      ⟨"Tata Consultancy", 10, 50, 500⟩ rfl
  rw [hmain]
  norm_num [Holding.mk.injEq]

/-- C6: a validated sell of `s` shares at price `pr` against holding `h`
increases cash by `s*pr` and appends a sell order with
`profit_loss = (pr - h.avg_price) * s`; a partial sell leaves `avg_price`
unchanged and sets `total_invested = remaining * avg_price`; a full sell
deletes the holding row outright. -/
theorem sell_updates_cash_and_holding {p : Portfolio} {sym c : String} {s : ℤ} {pr : ℚ}
    {h : Holding}
    (hsome : lookupHolding p.holdings sym = some h) (hge : ¬ h.shares < s) :
    (update_portfolio_db p sym "sell" s pr c).1 = some (true, "Sell order executed") ∧
    (update_portfolio_db p sym "sell" s pr c).2.cash = p.cash + (s : ℚ) * pr ∧
    (h.shares - s ≠ 0 →
      lookupHolding (update_portfolio_db p sym "sell" s pr c).2.holdings sym =
        some ⟨h.company_name, h.shares - s, h.avg_price,
          ((h.shares - s : ℤ) : ℚ) * h.avg_price⟩) ∧
    (h.shares - s = 0 →
      lookupHolding (update_portfolio_db p sym "sell" s pr c).2.holdings sym = none) ∧
    (update_portfolio_db p sym "sell" s pr c).2.orders =
      p.orders ++ [⟨sym, c, "sell", s, pr, (s : ℚ) * pr,
        some ((pr - h.avg_price) * (s : ℚ))⟩] := by
  refine ⟨?_, ?_, ?_, ?_, ?_⟩
  · by_cases hrem : h.shares - s = 0
    · rw [update_sell_full hsome hge hrem]
    · rw [update_sell_remaining hsome hge hrem]
  · by_cases hrem : h.shares - s = 0
    · rw [update_sell_full hsome hge hrem]
    · rw [update_sell_remaining hsome hge hrem]
  · intro hrem
    rw [update_sell_remaining hsome hge hrem]
    dsimp only
    rw [lookupHolding_updateAssoc, hsome]
    rfl
  · intro hrem
    rw [update_sell_full hsome hge hrem]
    exact lookupHolding_eraseAssoc
  · by_cases hrem : h.shares - s = 0
    · rw [update_sell_full hsome hge hrem]
    · rw [update_sell_remaining hsome hge hrem]

/-- C6 witness: selling 4 of the 10 example TCS shares held at average 50, at
price 60, leaves 6 shares at unchanged average 50 with total invested 300. -/
theorem sell_updates_cash_and_holding_witness :
    (update_portfolio_db examplePortfolio "TCS" "sell" 4 60 "").2.cash = 340 ∧
    lookupHolding (update_portfolio_db examplePortfolio "TCS" "sell" 4 60 "").2.holdings
        "TCS" =
      some ⟨"Tata Consultancy", 6, 50, 300⟩ := by
  have hmain := @sell_updates_cash_and_holding examplePortfolio "TCS" "" 4 60
    ⟨"Tata Consultancy", 10, 50, 500⟩ rfl (by decide)
  constructor
  · rw [hmain.2.1]
    norm_num [examplePortfolio]
  · rw [hmain.2.2.1 (by decide)]
    norm_num [Holding.mk.injEq]

/-- C7: a sell with no holding row for the symbol fails with "No shares to
sell", and a sell for more shares than held fails with "Insufficient shares";
in both cases the returned ledger is exactly the input ledger: cash, holdings
and orders are untouched. -/
theorem sell_rejections_leave_ledger_unchanged {p : Portfolio} {sym c : String} {s : ℤ}
    {pr : ℚ} :
    (lookupHolding p.holdings sym = none →
      update_portfolio_db p sym "sell" s pr c = (some (false, "No shares to sell"), p)) ∧
    (∀ h, lookupHolding p.holdings sym = some h → h.shares < s →
      update_portfolio_db p sym "sell" s pr c =
        (some (false, "Insufficient shares"), p)) :=
  ⟨fun hnone => update_sell_noposition hnone,
   fun _ hsome hlt => update_sell_insufficient hsome hlt⟩

/-- C7 witness: a sell of a never-held symbol and an oversell of the example
position both fail with the named errors and the untouched ledger. -/
theorem sell_rejections_leave_ledger_unchanged_witness :
    update_portfolio_db (freshPortfolio 1) "X" "sell" 1 10 "" =
      (some (false, "No shares to sell"), freshPortfolio 1) ∧
    update_portfolio_db examplePortfolio "TCS" "sell" 99 10 "" =
      (some (false, "Insufficient shares"), examplePortfolio) :=
  ⟨(@sell_rejections_leave_ledger_unchanged (freshPortfolio 1) "X" "" 1 10).1 rfl,
   (@sell_rejections_leave_ledger_unchanged examplePortfolio "TCS" "" 99 10).2
     ⟨"Tata Consultancy", 10, 50, 500⟩ rfl (by decide)⟩

/-- C8 counterexample: `calculate_portfolio_value` does not leave every
portfolio row as it was: it issues `UPDATE portfolios SET total_value = ...`,
so on a row whose stored `total_value` is 0 and cash is 50 the row afterwards
differs from the row before. -/
theorem calculate_portfolio_value_writes_total_value :
    (calculate_portfolio_value (fun _ => none)
        { portfolio_id := 1, cash := 50, total_value := 0, holdings := [], orders := [] }).2 ≠
      { portfolio_id := 1, cash := 50, total_value := 0, holdings := [], orders := [] } := by
  norm_num [calculate_portfolio_value, Portfolio.mk.injEq]

/-- C8 amended: `calculate_portfolio_value` mutates no ledger state other than
the cached `total_value` display field of the portfolio row (and its
timestamp): cash, holdings and orders are returned exactly as they were, the
computed total is `cash + Σ shares * price` with a per-symbol fallback to
`avg_price` on price-feed failure, and that total is what is written back. -/
theorem calculate_portfolio_value_frame (prices : String → Option ℚ) (p : Portfolio) :
    (calculate_portfolio_value prices p).2.cash = p.cash ∧
    (calculate_portfolio_value prices p).2.holdings = p.holdings ∧
    (calculate_portfolio_value prices p).2.orders = p.orders ∧
    (calculate_portfolio_value prices p).2.portfolio_id = p.portfolio_id ∧
    (calculate_portfolio_value prices p).2.total_value =
      (calculate_portfolio_value prices p).1 ∧
    (calculate_portfolio_value prices p).1 =
      p.cash +
        (p.holdings.map
          (fun kv => (kv.2.shares : ℚ) * ((prices kv.1).getD kv.2.avg_price))).sum :=
  ⟨rfl, rfl, rfl, rfl, rfl, rfl⟩

/-- C9 counterexample: with no storage connection, `get_user_portfolio` does
not report any failure: it returns a fabricated default snapshot (cash 100000,
no holdings, no orders, `portfolio_id` 0) that was never read from the store. -/
theorem get_user_portfolio_fabricates_default :
    get_user_portfolio none 7 = (defaultPortfolioDict, none) ∧
    defaultPortfolioDict.cash = 100000 ∧ defaultPortfolioDict.portfolio_id = 0 :=
  ⟨rfl, rfl, rfl⟩

/-- C9 amended: on storage-connectivity failure `get_user_portfolio` swallows
the error and returns the in-memory default portfolio dict instead of an
`Unavailable` failure, for every user id; a stored (or freshly provisioned)
snapshot is returned only on the connected path. -/
theorem get_user_portfolio_unavailable_returns_default (user_id : ℕ) :
    get_user_portfolio none user_id = (defaultPortfolioDict, none) := rfl

/-- C10: for an action other than "buy" and "sell", `update_portfolio_db`
falls off the end of its try block and returns Python `None` (no
(success, message) pair), leaving the ledger unchanged; callers that
destructure the result into two values then fail. -/
theorem unknown_action_returns_none {p : Portfolio} {sym a c : String} {s : ℤ} {pr : ℚ}
    (hb : a ≠ "buy") (hs : a ≠ "sell") :
    update_portfolio_db p sym a s pr c = (none, p) :=
  update_other_action hb hs

/-- C10 witness: the action "hold" yields `None` and an unchanged ledger. -/
theorem unknown_action_returns_none_witness :
    update_portfolio_db (freshPortfolio 1) "A" "hold" 1 10 "" = (none, freshPortfolio 1) :=
  unknown_action_returns_none (by decide) (by decide)

/-- C4 amended, witness: buy 10 at 100 then sell 5 at 150 from a fresh
portfolio: 99750 + 500 = 100000 + 250. -/
theorem conservation_witness :
    (runTrades (freshPortfolio 1) [⟨"A", "buy", 10, 100, ""⟩, ⟨"A", "sell", 5, 150, ""⟩]).cash +
        investedSum (runTrades (freshPortfolio 1)
          [⟨"A", "buy", 10, 100, ""⟩, ⟨"A", "sell", 5, 150, ""⟩]).holdings =
      100000 + sellPnlSum (runTrades (freshPortfolio 1)
          [⟨"A", "buy", 10, 100, ""⟩, ⟨"A", "sell", 5, 150, ""⟩]).orders :=
  @conservation 1 [⟨"A", "buy", 10, 100, ""⟩, ⟨"A", "sell", 5, 150, ""⟩] (by
    intro t ht
    simp only [List.mem_cons, List.mem_singleton, List.not_mem_nil, or_false] at ht
    rcases ht with rfl | rfl
    · exact ⟨by decide, by norm_num⟩
    · exact ⟨by decide, by norm_num⟩)

end Learn2Trade
